import Mathlib

/-!
Verification development for the clustered forward+/deferred renderer.

The WGSL shaders and TypeScript host code are shallowly embedded below.
Scalar `f32` values are modelled by an arbitrary linearly ordered field `α`
(instantiated at `ℚ` for executable witnesses and at `ℝ` when the genuine
transcendental semantics of `atan2`/`asin`/`sqrt`/`length` are needed);
`u32`/`i32` loop counters and indices are modelled by `ℕ`/`ℤ` (no value in
any statement approaches `2^32`, and WGSL unsigned `/` and `%` agree with
`Nat.div`/`Nat.mod`).  The WGSL intrinsics `atan2`, `asin` and the square
root underlying `length` are passed as explicit function parameters so that
the embedding stays executable; the real-valued instantiations used for the
geometric theorems are `atan2R`, `Real.arcsin` and `Real.sqrt`.
-/

/-- Two-component vector, as WGSL `vec2<f32>`. -/
structure Vec2 (α : Type) where
  x : α
  y : α
deriving DecidableEq

/-- Three-component vector, as WGSL `vec3<f32>`. -/
structure Vec3 (α : Type) where
  x : α
  y : α
  z : α
deriving DecidableEq

/-- Four-component vector, as WGSL `vec4<f32>`. -/
structure Vec4 (α : Type) where
  x : α
  y : α
  z : α
  w : α
deriving DecidableEq

attribute [ext] Vec3 Vec4

/-- Row-major 4x4 matrix, as WGSL `mat4x4<f32>`; `ri` is row `i`. -/
structure Mat4 (α : Type) where
  r0 : Vec4 α
  r1 : Vec4 α
  r2 : Vec4 α
  r3 : Vec4 α

/-- Matrix-vector product `m * v` (rows dotted with `v`). -/
def Mat4.mulVec [LinearOrderedField α] (m : Mat4 α) (v : Vec4 α) : Vec4 α :=
  ⟨m.r0.x * v.x + m.r0.y * v.y + m.r0.z * v.z + m.r0.w * v.w,
   m.r1.x * v.x + m.r1.y * v.y + m.r1.z * v.z + m.r1.w * v.w,
   m.r2.x * v.x + m.r2.y * v.y + m.r2.z * v.z + m.r2.w * v.w,
   m.r3.x * v.x + m.r3.y * v.y + m.r3.z * v.z + m.r3.w * v.w⟩

/-- Identity matrix (used to instantiate view matrices in concrete scenes). -/
def Mat4.id [LinearOrderedField α] : Mat4 α :=
  ⟨⟨1, 0, 0, 0⟩, ⟨0, 1, 0, 0⟩, ⟨0, 0, 1, 0⟩, ⟨0, 0, 0, 1⟩⟩

/-- Componentwise sum of `vec3` values (WGSL `+`). -/
def Vec3.add [LinearOrderedField α] (a b : Vec3 α) : Vec3 α :=
  ⟨a.x + b.x, a.y + b.y, a.z + b.z⟩

/-- Componentwise difference of `vec3` values (WGSL `-`). -/
def Vec3.sub [LinearOrderedField α] (a b : Vec3 α) : Vec3 α :=
  ⟨a.x - b.x, a.y - b.y, a.z - b.z⟩

/-- Vector-scalar product (WGSL `v * s`). -/
def Vec3.scale [LinearOrderedField α] (a : Vec3 α) (s : α) : Vec3 α :=
  ⟨a.x * s, a.y * s, a.z * s⟩

/-- Vector-scalar division (WGSL `v / s`). -/
def Vec3.sdiv [LinearOrderedField α] (a : Vec3 α) (s : α) : Vec3 α :=
  ⟨a.x / s, a.y / s, a.z / s⟩

/-- Componentwise product of `vec3` values (WGSL `*`). -/
def Vec3.cmul [LinearOrderedField α] (a b : Vec3 α) : Vec3 α :=
  ⟨a.x * b.x, a.y * b.y, a.z * b.z⟩

/-- Dot product of `vec3` values (WGSL `dot`). -/
def Vec3.dot [LinearOrderedField α] (a b : Vec3 α) : α :=
  a.x * b.x + a.y * b.y + a.z * b.z

/-- Zero vector. -/
def Vec3.zero [LinearOrderedField α] : Vec3 α := ⟨0, 0, 0⟩

/-- WGSL `length(v)` for `vec3`, relative to an explicit square-root
function `sqrtF` (instantiated with `Real.sqrt` over `ℝ`). -/
def vlength [LinearOrderedField α] (sqrtF : α → α) (v : Vec3 α) : α :=
  sqrtF (Vec3.dot v v)

/-- Struct `Light` of common.wgsl: `position: vec3<f32>` and `color: vec3<f32>`
(the two pad floats carry no information and are omitted). -/
structure Light (α : Type) where
  position : Vec3 α
  color : Vec3 α

/-- Struct `Lights` of common.wgsl: active light count plus the runtime light
array, modelled as a total function from index to light data. -/
structure LightSet (α : Type) where
  numLights : ℕ
  lights : ℕ → Light α

/-- Struct `ClusteringUniforms` of common.wgsl.  `projMat` is never read by
the shaders under verification and is omitted; the remaining fields are
exactly the bound uniform values. -/
structure ClusteringUniforms (α : Type) where
  viewMat : Mat4 α
  invProjMat : Mat4 α
  screenWidth : α
  screenHeight : α
  near : α
  far : α
  clustersX : ℕ
  clustersY : ℕ
  clustersZ : ℕ
  maxLightsPerCluster : ℕ

/-- Total number of clusters `clustersX * clustersY * clustersZ`
(clustering.cs.wgsl line 13). -/
def totalClusters [LinearOrderedField α] (cfg : ClusteringUniforms α) : ℕ :=
  cfg.clustersX * cfg.clustersY * cfg.clustersZ

/-- The literal `3.1415926` used for pi by clustering.cs.wgsl line 29. -/
def piLit [LinearOrderedField α] : α := 31415926 / 10000000

/-- Per-cluster bounds computed by clustering.cs.wgsl lines 21-43: the flat
cluster index is decomposed by integer div/mod into `(clusterX, clusterY,
clusterZ)`, angular bounds come from the hard-coded 45-degree vertical FOV
scaled by the aspect ratio, and depth bounds are linear slices of
`[near, far]`. -/
structure ClusterBounds (α : Type) where
  angleLeft : α
  angleRight : α
  angleDown : α
  angleUp : α
  zNear : α
  zFar : α

/-- Embeds clustering.cs.wgsl lines 21-43 (bounds computation for the cluster
with flat index `clusterIndex`). -/
def clusterBoundsOf [LinearOrderedField α] (cfg : ClusteringUniforms α)
    (clusterIndex : ℕ) : ClusterBounds α :=
  let clusterZ := clusterIndex / (cfg.clustersX * cfg.clustersY)
  let clusterXY := clusterIndex % (cfg.clustersX * cfg.clustersY)
  let clusterY := clusterXY / cfg.clustersX
  let clusterX := clusterXY % cfg.clustersX
  let fovY : α := 45 * piLit / 180
  let aspect := cfg.screenWidth / cfg.screenHeight
  let fovX := fovY * aspect
  let angleLeft := -fovX * (1 / 2) + fovX * (clusterX : α) / (cfg.clustersX : α)
  let angleRight := -fovX * (1 / 2) + fovX * ((clusterX + 1 : ℕ) : α) / (cfg.clustersX : α)
  let angleDown := -fovY * (1 / 2) + fovY * ((clusterY + 1 : ℕ) : α) / (cfg.clustersY : α)
  let angleUp := -fovY * (1 / 2) + fovY * (clusterY : α) / (cfg.clustersY : α)
  let zSliceDepth := (cfg.far - cfg.near) / (cfg.clustersZ : α)
  let zNear := cfg.near + zSliceDepth * (clusterZ : α)
  let zFar := cfg.near + zSliceDepth * ((clusterZ + 1 : ℕ) : α)
  ⟨angleLeft, angleRight, angleDown, angleUp, zNear, zFar⟩

/-- View-space position of a light: `(viewMat * vec4(lightPos, 1)).xyz`
(clustering.cs.wgsl line 52). -/
def lightViewPos [LinearOrderedField α] (cfg : ClusteringUniforms α)
    (light : Light α) : Vec3 α :=
  let v := cfg.viewMat.mulVec ⟨light.position.x, light.position.y, light.position.z, 1⟩
  ⟨v.x, v.y, v.z⟩

/-- Embeds the per-light body of the loop of clustering.cs.wgsl lines 46-77:
`true` iff the light survives the depth pre-filter and both angular tests for
the cluster with flat index `clusterIndex` (i.e. none of the three `continue`
branches fires).  `atan2`/`asin` are the WGSL intrinsics, passed as explicit
functions. -/
def lightIntersectsCluster [LinearOrderedField α] (atan2 : α → α → α) (asin : α → α)
    (lightRadius : α) (cfg : ClusteringUniforms α) (clusterIndex : ℕ)
    (light : Light α) : Bool :=
  let b := clusterBoundsOf cfg clusterIndex
  let lightPosView := lightViewPos cfg light
  let lx := lightPosView.x
  let ly := lightPosView.y
  let lz := -lightPosView.z
  if lz < b.zNear - lightRadius ∨ lz > b.zFar + lightRadius then false
  else
    let horizAngle := atan2 lx (lightPosView.z * (-1))
    let vertAngle := atan2 ly (lightPosView.z * (-1))
    let halfAngleHoriz := asin (min 1 (lightRadius / max lz (1 / 1000)))
    let halfAngleVert := asin (min 1 (lightRadius / max lz (1 / 1000)))
    let lightAngleLeft := horizAngle - halfAngleHoriz
    let lightAngleRight := horizAngle + halfAngleHoriz
    let lightAngleDown := vertAngle - halfAngleVert
    let lightAngleUp := vertAngle + halfAngleVert
    if lightAngleRight < b.angleLeft ∨ lightAngleLeft > b.angleRight then false
    else if lightAngleUp < b.angleDown ∨ lightAngleDown > b.angleUp then false
    else true

/-- Embeds the light loop of clustering.cs.wgsl lines 46-85 for one cluster:
the list of light indices written to this cluster's slice of
`clusterIndices`, in write order.  The running `count` of the shader is by
construction the length of the accumulator: an index is appended exactly when
the intersection tests pass and `count < maxLightsPerCluster`, and `count`
is incremented exactly then. -/
def clusterAcceptedLights [LinearOrderedField α] (atan2 : α → α → α) (asin : α → α)
    (lightRadius : α) (cfg : ClusteringUniforms α) (lightData : LightSet α)
    (clusterIndex : ℕ) : List ℕ :=
  (List.range lightData.numLights).foldl
    (fun acc lightIndex =>
      if lightIntersectsCluster atan2 asin lightRadius cfg clusterIndex
            (lightData.lights lightIndex) = true
          ∧ acc.length < cfg.maxLightsPerCluster
      then acc ++ [lightIndex] else acc)
    []

/-- Capacity-bounded accumulation is `filter` followed by `take`: folding the
append-if-accepted-and-not-full step over any index list extends the
accumulator by the accepted indices up to the remaining capacity. -/
theorem foldl_accept_eq_take_filter (p : ℕ → Bool) (maxN : ℕ) :
    ∀ (l : List ℕ) (acc : List ℕ), acc.length ≤ maxN →
      (l.foldl (fun acc i => if p i = true ∧ acc.length < maxN then acc ++ [i] else acc) acc)
        = acc ++ (l.filter p).take (maxN - acc.length) := by
  intro l
  induction l with
  | nil => intro acc _; simp
  | cons a t ih =>
      intro acc hacc
      by_cases hp : p a = true
      · by_cases hlt : acc.length < maxN
        · have h1 : (acc ++ [a]).length ≤ maxN := by
            simpa using Nat.succ_le_of_lt hlt
          rw [List.foldl_cons, if_pos ⟨hp, hlt⟩, ih (acc ++ [a]) h1]
          have hsub : maxN - acc.length = (maxN - (acc ++ [a]).length) + 1 := by
            simp only [List.length_append, List.length_cons, List.length_nil]
            omega
          simp [hp, hsub, List.filter_cons, List.take_succ_cons]
        · have heq : acc.length = maxN := le_antisymm hacc (not_lt.mp hlt)
          rw [List.foldl_cons, if_neg (by simp [hlt])]
          rw [ih acc hacc]
          simp [heq]
      · rw [List.foldl_cons, if_neg (by simp [hp])]
        rw [ih acc hacc]
        simp [List.filter_cons, hp]

/-- The per-cluster accepted list is the first `maxLightsPerCluster` light
indices (in increasing order) passing the intersection test. -/
theorem clusterAcceptedLights_eq_take_filter [LinearOrderedField α] (atan2 : α → α → α)
    (asin : α → α) (lightRadius : α) (cfg : ClusteringUniforms α)
    (lightData : LightSet α) (clusterIndex : ℕ) :
    clusterAcceptedLights atan2 asin lightRadius cfg lightData clusterIndex
      = ((List.range lightData.numLights).filter
          (fun i => lightIntersectsCluster atan2 asin lightRadius cfg clusterIndex
            (lightData.lights i))).take cfg.maxLightsPerCluster := by
  unfold clusterAcceptedLights
  have h := foldl_accept_eq_take_filter
    (fun i => lightIntersectsCluster atan2 asin lightRadius cfg clusterIndex
      (lightData.lights i))
    cfg.maxLightsPerCluster (List.range lightData.numLights) [] (by simp)
  simpa using h

/-- The accepted list never exceeds the capacity. -/
theorem clusterAcceptedLights_length_le [LinearOrderedField α] (atan2 : α → α → α)
    (asin : α → α) (lightRadius : α) (cfg : ClusteringUniforms α)
    (lightData : LightSet α) (clusterIndex : ℕ) :
    (clusterAcceptedLights atan2 asin lightRadius cfg lightData clusterIndex).length
      ≤ cfg.maxLightsPerCluster := by
  rw [clusterAcceptedLights_eq_take_filter]
  simp [List.length_take]

/-- Every member of the accepted list is an in-range light index that passes
the intersection test. -/
theorem clusterAcceptedLights_mem [LinearOrderedField α] (atan2 : α → α → α)
    (asin : α → α) (lightRadius : α) (cfg : ClusteringUniforms α)
    (lightData : LightSet α) (clusterIndex : ℕ) (i : ℕ)
    (h : i ∈ clusterAcceptedLights atan2 asin lightRadius cfg lightData clusterIndex) :
    i < lightData.numLights ∧
      lightIntersectsCluster atan2 asin lightRadius cfg clusterIndex
        (lightData.lights i) = true := by
  rw [clusterAcceptedLights_eq_take_filter] at h
  have h2 := List.mem_of_mem_take h
  have h3 := List.of_mem_filter h2
  have h4 := List.mem_of_mem_filter h2
  exact ⟨List.mem_range.mp h4, by simpa using h3⟩

/-- The two storage buffers written by the clustering pass, modelled as total
maps from flat element index to `u32` value (`ClusterCounts.data` and
`ClusterIndices.data` of common.wgsl). -/
structure ClusterBuffers where
  counts : ℕ → ℕ
  indices : ℕ → ℕ

/-- Sequential stores `f[k+i] := l[i]`, as performed by the accepted-light
writes of clustering.cs.wgsl line 80 (the `i`-th accepted light is written at
offset `count = i` of the cluster's slice). -/
def writeList (k : ℕ) (l : List ℕ) (f : ℕ → ℕ) : ℕ → ℕ :=
  match l with
  | [] => f
  | a :: as => writeList (k + 1) as (Function.update f k a)

theorem writeList_outside (l : List ℕ) : ∀ (k : ℕ) (f : ℕ → ℕ) (j : ℕ),
    (j < k ∨ k + l.length ≤ j) → writeList k l f j = f j := by
  induction l with
  | nil => intro k f j _; rfl
  | cons a as ih =>
      intro k f j hj
      simp only [List.length_cons] at hj
      have hne : j ≠ k := by omega
      have h2 := ih (k + 1) (Function.update f k a) j (by omega)
      rw [writeList, h2, Function.update_noteq hne]

theorem writeList_get (l : List ℕ) : ∀ (k : ℕ) (f : ℕ → ℕ) (i : ℕ) (h : i < l.length),
    writeList k l f (k + i) = l.get ⟨i, h⟩ := by
  induction l with
  | nil => intro k f i h; simp at h
  | cons a as ih =>
      intro k f i h
      cases i with
      | zero =>
          rw [writeList, writeList_outside as (k + 1) _ (k + 0) (by omega)]
          simp
      | succ n =>
          have := ih (k + 1) (Function.update f k a) n (by simpa using Nat.lt_of_succ_lt_succ h)
          rw [writeList, show k + (n + 1) = (k + 1) + n by omega, this]
          simp

/-- Writing values a map already holds is a no-op. -/
theorem writeList_eq_self (l : List ℕ) : ∀ (k : ℕ) (f : ℕ → ℕ),
    (∀ i (h : i < l.length), f (k + i) = l.get ⟨i, h⟩) → writeList k l f = f := by
  induction l with
  | nil => intro k f _; rfl
  | cons a as ih =>
      intro k f hf
      have hupd : Function.update f k a = f := by
        funext j
        by_cases hj : j = k
        · subst hj
          rw [Function.update_same]
          have := hf 0 (by simp)
          simpa using this.symm
        · rw [Function.update_noteq hj]
      rw [writeList, hupd]
      apply ih
      intro i h
      have := hf (i + 1) (by simpa using Nat.succ_lt_succ h)
      rw [show k + 1 + i = k + (i + 1) by omega]
      simpa using this

/-- Embeds one invocation of `main` of clustering.cs.wgsl acting on the two
storage buffers: threads whose flat id is at least `totalClusters` return
before touching any buffer (line 14-16); an in-range thread writes the
accepted light indices into its cluster's slice of `clusterIndices` and
finally stores the count into `clusterCounts` (lines 78-85). -/
def clusterThread [LinearOrderedField α] (atan2 : α → α → α) (asin : α → α)
    (lightRadius : α) (cfg : ClusteringUniforms α) (lightData : LightSet α)
    (gid : ℕ) (bufs : ClusterBuffers) : ClusterBuffers :=
  if totalClusters cfg ≤ gid then bufs
  else
    let accepted := clusterAcceptedLights atan2 asin lightRadius cfg lightData gid
    ⟨Function.update bufs.counts gid accepted.length,
     writeList (gid * cfg.maxLightsPerCluster) accepted bufs.indices⟩

/-- Number of workgroups dispatched by `Lights.doLightClustering`:
`Math.ceil(numClusters / 64)`. -/
def numWorkgroups [LinearOrderedField α] (cfg : ClusteringUniforms α) : ℕ :=
  (totalClusters cfg + 63) / 64

/-- Embeds `Lights.doLightClustering`: one compute dispatch of
`numWorkgroups` workgroups of 64 threads of clustering.cs.wgsl over the
cluster buffers. -/
def doLightClustering [LinearOrderedField α] (atan2 : α → α → α) (asin : α → α)
    (lightRadius : α) (cfg : ClusteringUniforms α) (lightData : LightSet α)
    (bufs : ClusterBuffers) : ClusterBuffers :=
  (List.range (numWorkgroups cfg * 64)).foldl
    (fun b gid => clusterThread atan2 asin lightRadius cfg lightData gid b) bufs

/-- The dispatch covers every cluster: `totalClusters ≤ numWorkgroups * 64`. -/
theorem totalClusters_le_dispatch [LinearOrderedField α] (cfg : ClusteringUniforms α) :
    totalClusters cfg ≤ numWorkgroups cfg * 64 := by
  have h := Nat.div_add_mod (totalClusters cfg + 63) 64
  have hlt : (totalClusters cfg + 63) % 64 < 64 := Nat.mod_lt _ (by omega)
  unfold numWorkgroups
  omega

theorem clusterThread_out [LinearOrderedField α] (atan2 : α → α → α) (asin : α → α)
    (lightRadius : α) (cfg : ClusteringUniforms α) (lightData : LightSet α)
    (gid : ℕ) (bufs : ClusterBuffers) (h : totalClusters cfg ≤ gid) :
    clusterThread atan2 asin lightRadius cfg lightData gid bufs = bufs := by
  rw [clusterThread, if_pos h]

theorem clusterThread_counts_self [LinearOrderedField α] (atan2 : α → α → α) (asin : α → α)
    (lightRadius : α) (cfg : ClusteringUniforms α) (lightData : LightSet α)
    (gid : ℕ) (bufs : ClusterBuffers) (h : gid < totalClusters cfg) :
    (clusterThread atan2 asin lightRadius cfg lightData gid bufs).counts gid
      = (clusterAcceptedLights atan2 asin lightRadius cfg lightData gid).length := by
  rw [clusterThread, if_neg (not_le.mpr h)]
  exact Function.update_same _ _ _

theorem clusterThread_counts_ne [LinearOrderedField α] (atan2 : α → α → α) (asin : α → α)
    (lightRadius : α) (cfg : ClusteringUniforms α) (lightData : LightSet α)
    (gid c : ℕ) (bufs : ClusterBuffers) (h : c ≠ gid) :
    (clusterThread atan2 asin lightRadius cfg lightData gid bufs).counts c
      = bufs.counts c := by
  rw [clusterThread]
  by_cases hg : totalClusters cfg ≤ gid
  · rw [if_pos hg]
  · rw [if_neg hg]
    exact Function.update_noteq h _ _

theorem clusterThread_indices_get [LinearOrderedField α] (atan2 : α → α → α) (asin : α → α)
    (lightRadius : α) (cfg : ClusteringUniforms α) (lightData : LightSet α)
    (c i : ℕ) (bufs : ClusterBuffers) (hc : c < totalClusters cfg)
    (hi : i < (clusterAcceptedLights atan2 asin lightRadius cfg lightData c).length) :
    (clusterThread atan2 asin lightRadius cfg lightData c bufs).indices
        (c * cfg.maxLightsPerCluster + i)
      = (clusterAcceptedLights atan2 asin lightRadius cfg lightData c).get ⟨i, hi⟩ := by
  rw [clusterThread, if_neg (not_le.mpr hc)]
  exact writeList_get _ _ _ _ hi

/-- A thread leaves every `clusterIndices` slot belonging to a different
cluster untouched (the slices `[gid*max, gid*max + count)` are pairwise
disjoint because `count ≤ max`). -/
theorem clusterThread_indices_other [LinearOrderedField α] (atan2 : α → α → α) (asin : α → α)
    (lightRadius : α) (cfg : ClusteringUniforms α) (lightData : LightSet α)
    (gid c i : ℕ) (bufs : ClusterBuffers) (hne : c ≠ gid)
    (hi : i < cfg.maxLightsPerCluster) :
    (clusterThread atan2 asin lightRadius cfg lightData gid bufs).indices
        (c * cfg.maxLightsPerCluster + i)
      = bufs.indices (c * cfg.maxLightsPerCluster + i) := by
  rw [clusterThread]
  by_cases hg : totalClusters cfg ≤ gid
  · rw [if_pos hg]
  · rw [if_neg hg]
    apply writeList_outside
    have hlen := clusterAcceptedLights_length_le atan2 asin lightRadius cfg lightData gid
    rcases Nat.lt_or_ge c gid with hlt | hge
    · left
      have h1 : (c + 1) * cfg.maxLightsPerCluster ≤ gid * cfg.maxLightsPerCluster :=
        mul_le_mul_right' (Nat.succ_le_of_lt hlt) _
      have h2 : c * cfg.maxLightsPerCluster + i < (c + 1) * cfg.maxLightsPerCluster := by
        have : (c + 1) * cfg.maxLightsPerCluster
            = c * cfg.maxLightsPerCluster + cfg.maxLightsPerCluster := by ring
        omega
      omega
    · right
      have hgt : gid < c := lt_of_le_of_ne hge (Ne.symm hne)
      have h1 : (gid + 1) * cfg.maxLightsPerCluster ≤ c * cfg.maxLightsPerCluster :=
        mul_le_mul_right' (Nat.succ_le_of_lt hgt) _
      have h2 : (gid + 1) * cfg.maxLightsPerCluster
          = gid * cfg.maxLightsPerCluster + cfg.maxLightsPerCluster := by ring
      omega

/-- A thread never touches the slack of its own slice either: slots at offset
`count ≤ i < max` of cluster `c` keep their previous contents. -/
theorem clusterThread_indices_slack [LinearOrderedField α] (atan2 : α → α → α) (asin : α → α)
    (lightRadius : α) (cfg : ClusteringUniforms α) (lightData : LightSet α)
    (gid c i : ℕ) (bufs : ClusterBuffers)
    (hi : (clusterAcceptedLights atan2 asin lightRadius cfg lightData c).length ≤ i)
    (him : i < cfg.maxLightsPerCluster) :
    (clusterThread atan2 asin lightRadius cfg lightData gid bufs).indices
        (c * cfg.maxLightsPerCluster + i)
      = bufs.indices (c * cfg.maxLightsPerCluster + i) := by
  by_cases hne : c = gid
  · subst hne
    rw [clusterThread]
    by_cases hg : totalClusters cfg ≤ c
    · rw [if_pos hg]
    · rw [if_neg hg]
      exact writeList_outside _ _ _ _ (Or.inr (by omega))
  · exact clusterThread_indices_other atan2 asin lightRadius cfg lightData gid c i bufs hne him

/-- A thread never writes any `clusterIndices` slot at or beyond
`totalClusters * maxLightsPerCluster` (the buffer's allocated extent). -/
theorem clusterThread_indices_high [LinearOrderedField α] (atan2 : α → α → α) (asin : α → α)
    (lightRadius : α) (cfg : ClusteringUniforms α) (lightData : LightSet α)
    (gid j : ℕ) (bufs : ClusterBuffers)
    (hj : totalClusters cfg * cfg.maxLightsPerCluster ≤ j) :
    (clusterThread atan2 asin lightRadius cfg lightData gid bufs).indices j
      = bufs.indices j := by
  rw [clusterThread]
  by_cases hg : totalClusters cfg ≤ gid
  · rw [if_pos hg]
  · rw [if_neg hg]
    apply writeList_outside
    right
    have hlen := clusterAcceptedLights_length_le atan2 asin lightRadius cfg lightData gid
    have h1 : (gid + 1) * cfg.maxLightsPerCluster ≤ totalClusters cfg * cfg.maxLightsPerCluster :=
      mul_le_mul_right' (Nat.succ_le_of_lt (not_le.mp hg)) _
    have h2 : (gid + 1) * cfg.maxLightsPerCluster
        = gid * cfg.maxLightsPerCluster + cfg.maxLightsPerCluster := by ring
    omega

/-- Value of a `clusterCounts` entry after folding any list of thread ids:
each in-range cluster that some thread in the list covers holds its accepted
count; every other entry keeps the incoming buffer value. -/
theorem foldThreads_counts [LinearOrderedField α] (atan2 : α → α → α) (asin : α → α)
    (lightRadius : α) (cfg : ClusteringUniforms α) (lightData : LightSet α) (c : ℕ) :
    ∀ (l : List ℕ) (bufs : ClusterBuffers),
      ((l.foldl (fun b gid => clusterThread atan2 asin lightRadius cfg lightData gid b)
          bufs).counts c)
        = if c < totalClusters cfg ∧ c ∈ l
          then (clusterAcceptedLights atan2 asin lightRadius cfg lightData c).length
          else bufs.counts c := by
  intro l
  induction l with
  | nil => intro bufs; simp
  | cons g t ih =>
      intro bufs
      rw [List.foldl_cons, ih]
      by_cases hmem : c < totalClusters cfg ∧ c ∈ t
      · rw [if_pos hmem, if_pos ⟨hmem.1, List.mem_cons_of_mem g hmem.2⟩]
      · rw [if_neg hmem]
        by_cases hcg : c = g
        · subst hcg
          by_cases hc : c < totalClusters cfg
          · rw [if_pos ⟨hc, List.mem_cons_self c t⟩]
            exact clusterThread_counts_self atan2 asin lightRadius cfg lightData c bufs hc
          · rw [if_neg (by tauto)]
            rw [clusterThread_out atan2 asin lightRadius cfg lightData c bufs (not_lt.mp hc)]
        · rw [clusterThread_counts_ne atan2 asin lightRadius cfg lightData g c bufs hcg]
          have : ¬(c < totalClusters cfg ∧ c ∈ g :: t) := by
            intro ⟨h1, h2⟩
            rcases List.mem_cons.mp h2 with h | h
            · exact hcg h
            · exact hmem ⟨h1, h⟩
          rw [if_neg this]

/-- Value of an in-slice `clusterIndices` slot after folding a list of thread
ids. -/
theorem foldThreads_indices_get [LinearOrderedField α] (atan2 : α → α → α) (asin : α → α)
    (lightRadius : α) (cfg : ClusteringUniforms α) (lightData : LightSet α) (c i : ℕ)
    (hc : c < totalClusters cfg)
    (hi : i < (clusterAcceptedLights atan2 asin lightRadius cfg lightData c).length) :
    ∀ (l : List ℕ) (bufs : ClusterBuffers),
      ((l.foldl (fun b gid => clusterThread atan2 asin lightRadius cfg lightData gid b)
          bufs).indices (c * cfg.maxLightsPerCluster + i))
        = if c ∈ l
          then (clusterAcceptedLights atan2 asin lightRadius cfg lightData c).get ⟨i, hi⟩
          else bufs.indices (c * cfg.maxLightsPerCluster + i) := by
  intro l
  have him : i < cfg.maxLightsPerCluster :=
    lt_of_lt_of_le hi (clusterAcceptedLights_length_le atan2 asin lightRadius cfg lightData c)
  induction l with
  | nil => intro bufs; simp
  | cons g t ih =>
      intro bufs
      rw [List.foldl_cons, ih]
      by_cases hmem : c ∈ t
      · rw [if_pos hmem, if_pos (List.mem_cons_of_mem g hmem)]
      · rw [if_neg hmem]
        by_cases hcg : c = g
        · subst hcg
          rw [if_pos (List.mem_cons_self c t)]
          exact clusterThread_indices_get atan2 asin lightRadius cfg lightData c i bufs hc hi
        · rw [clusterThread_indices_other atan2 asin lightRadius cfg lightData g c i bufs hcg him]
          rw [if_neg (by
            intro h
            rcases List.mem_cons.mp h with h | h
            · exact hcg h
            · exact hmem h)]

/-- Slack slots of every slice survive folding any list of thread ids. -/
theorem foldThreads_indices_slack [LinearOrderedField α] (atan2 : α → α → α) (asin : α → α)
    (lightRadius : α) (cfg : ClusteringUniforms α) (lightData : LightSet α) (c i : ℕ)
    (hi : (clusterAcceptedLights atan2 asin lightRadius cfg lightData c).length ≤ i)
    (him : i < cfg.maxLightsPerCluster) :
    ∀ (l : List ℕ) (bufs : ClusterBuffers),
      ((l.foldl (fun b gid => clusterThread atan2 asin lightRadius cfg lightData gid b)
          bufs).indices (c * cfg.maxLightsPerCluster + i))
        = bufs.indices (c * cfg.maxLightsPerCluster + i) := by
  intro l
  induction l with
  | nil => intro bufs; rfl
  | cons g t ih =>
      intro bufs
      rw [List.foldl_cons, ih]
      exact clusterThread_indices_slack atan2 asin lightRadius cfg lightData g c i bufs hi him

/-- Slots at or beyond the allocated extent survive folding any list of
thread ids. -/
theorem foldThreads_indices_high [LinearOrderedField α] (atan2 : α → α → α) (asin : α → α)
    (lightRadius : α) (cfg : ClusteringUniforms α) (lightData : LightSet α) (j : ℕ)
    (hj : totalClusters cfg * cfg.maxLightsPerCluster ≤ j) :
    ∀ (l : List ℕ) (bufs : ClusterBuffers),
      ((l.foldl (fun b gid => clusterThread atan2 asin lightRadius cfg lightData gid b)
          bufs).indices j)
        = bufs.indices j := by
  intro l
  induction l with
  | nil => intro bufs; rfl
  | cons g t ih =>
      intro bufs
      rw [List.foldl_cons, ih]
      exact clusterThread_indices_high atan2 asin lightRadius cfg lightData g j bufs hj

attribute [ext] ClusterBuffers

/-- Count written by a full dispatch for an in-range cluster. -/
theorem doLightClustering_counts [LinearOrderedField α] (atan2 : α → α → α) (asin : α → α)
    (lightRadius : α) (cfg : ClusteringUniforms α) (lightData : LightSet α)
    (bufs : ClusterBuffers) (c : ℕ) (hc : c < totalClusters cfg) :
    (doLightClustering atan2 asin lightRadius cfg lightData bufs).counts c
      = (clusterAcceptedLights atan2 asin lightRadius cfg lightData c).length := by
  unfold doLightClustering
  rw [foldThreads_counts]
  rw [if_pos ⟨hc, List.mem_range.mpr (lt_of_lt_of_le hc (totalClusters_le_dispatch cfg))⟩]

/-- In-slice index entry written by a full dispatch. -/
theorem doLightClustering_indices [LinearOrderedField α] (atan2 : α → α → α) (asin : α → α)
    (lightRadius : α) (cfg : ClusteringUniforms α) (lightData : LightSet α)
    (bufs : ClusterBuffers) (c i : ℕ) (hc : c < totalClusters cfg)
    (hi : i < (clusterAcceptedLights atan2 asin lightRadius cfg lightData c).length) :
    (doLightClustering atan2 asin lightRadius cfg lightData bufs).indices
        (c * cfg.maxLightsPerCluster + i)
      = (clusterAcceptedLights atan2 asin lightRadius cfg lightData c).get ⟨i, hi⟩ := by
  unfold doLightClustering
  rw [foldThreads_indices_get atan2 asin lightRadius cfg lightData c i hc hi]
  rw [if_pos (List.mem_range.mpr (lt_of_lt_of_le hc (totalClusters_le_dispatch cfg)))]

/-- C7.  Running the Assignment Engine twice with identical inputs (camera /
clustering parameters, light positions and count) yields bit-identical
`counts`/`indices` buffers: the engine is a deterministic pure function of its
inputs (it is a `def`), and rerunning it on its own output state changes
nothing — the fixed-point equation below. -/
theorem C7_assignment_idempotent [LinearOrderedField α] (atan2 : α → α → α) (asin : α → α)
    (lightRadius : α) (cfg : ClusteringUniforms α) (lightData : LightSet α)
    (bufs : ClusterBuffers) :
    doLightClustering atan2 asin lightRadius cfg lightData
        (doLightClustering atan2 asin lightRadius cfg lightData bufs)
      = doLightClustering atan2 asin lightRadius cfg lightData bufs := by
  ext j
  · by_cases hc : j < totalClusters cfg
    · rw [doLightClustering_counts atan2 asin lightRadius cfg lightData _ j hc,
        doLightClustering_counts atan2 asin lightRadius cfg lightData bufs j hc]
    · unfold doLightClustering
      rw [foldThreads_counts, if_neg (by tauto)]
  · by_cases hj : totalClusters cfg * cfg.maxLightsPerCluster ≤ j
    · exact foldThreads_indices_high atan2 asin lightRadius cfg lightData j hj _ _
    · push_neg at hj
      have hmaxpos : 0 < cfg.maxLightsPerCluster := by
        rcases Nat.eq_zero_or_pos cfg.maxLightsPerCluster with h0 | h
        · rw [h0, Nat.mul_zero] at hj; omega
        · exact h
      have hc : j / cfg.maxLightsPerCluster < totalClusters cfg :=
        (Nat.div_lt_iff_lt_mul hmaxpos).mpr hj
      have hj' : j = j / cfg.maxLightsPerCluster * cfg.maxLightsPerCluster
          + j % cfg.maxLightsPerCluster := by
        rw [Nat.mul_comm]
        exact (Nat.div_add_mod j cfg.maxLightsPerCluster).symm
      by_cases hlen : j % cfg.maxLightsPerCluster
          < (clusterAcceptedLights atan2 asin lightRadius cfg lightData
              (j / cfg.maxLightsPerCluster)).length
      · rw [hj']
        rw [doLightClustering_indices atan2 asin lightRadius cfg lightData _
            (j / cfg.maxLightsPerCluster) (j % cfg.maxLightsPerCluster) hc hlen,
          doLightClustering_indices atan2 asin lightRadius cfg lightData bufs
            (j / cfg.maxLightsPerCluster) (j % cfg.maxLightsPerCluster) hc hlen]
      · push_neg at hlen
        rw [hj']
        exact foldThreads_indices_slack atan2 asin lightRadius cfg lightData
          (j / cfg.maxLightsPerCluster) (j % cfg.maxLightsPerCluster) hlen
          (Nat.mod_lt _ hmaxpos) _ _

/-- C2.  After the assignment engine finishes, every in-range cluster's
written count satisfies `counts[c] ≤ maxLightsPerCluster` (the lower bound
`0 ≤ counts[c]` holds because counts are modelled as `ℕ`, mirroring `u32`),
for every light configuration, capacity, and initial buffer state. -/
theorem C2_counts_bounded [LinearOrderedField α] (atan2 : α → α → α) (asin : α → α)
    (lightRadius : α) (cfg : ClusteringUniforms α) (lightData : LightSet α)
    (bufs : ClusterBuffers) (c : ℕ) (hc : c < totalClusters cfg) :
    (doLightClustering atan2 asin lightRadius cfg lightData bufs).counts c
      ≤ cfg.maxLightsPerCluster := by
  rw [doLightClustering_counts atan2 asin lightRadius cfg lightData bufs c hc]
  exact clusterAcceptedLights_length_le atan2 asin lightRadius cfg lightData c

/-- Concrete rational clustering configuration used by executable witnesses:
a 1x1x1 grid, 1000x1000 screen, near 0.1, far 1000, capacity 5, identity view
matrix. -/
def cfgW : ClusteringUniforms ℚ :=
  ⟨Mat4.id, Mat4.id, 1000, 1000, 1 / 10, 1000, 1, 1, 1, 5⟩

/-- One light 10 units in front of the camera, for witnesses. -/
def lightsW : LightSet ℚ :=
  ⟨1, fun _ => ⟨⟨0, 0, -10⟩, ⟨1, 1, 1⟩⟩⟩

/-- Stand-in `atan2` used only to exercise witnesses of theorems that hold
for every `atan2` function. -/
def atanQ : ℚ → ℚ → ℚ := fun _ _ => 0

/-- Stand-in `asin` used only to exercise witnesses of theorems that hold
for every `asin` function. -/
def asinQ : ℚ → ℚ := fun _ => 1

/-- Zero-initialized cluster buffers. -/
def bufs0 : ClusterBuffers := ⟨fun _ => 0, fun _ => 0⟩

/-- Witness for C2 at a concrete executable input. -/
theorem C2_counts_bounded_witness :
    0 < totalClusters cfgW ∧
      (doLightClustering atanQ asinQ 2 cfgW lightsW bufs0).counts 0
        ≤ cfgW.maxLightsPerCluster :=
  ⟨by decide, C2_counts_bounded atanQ asinQ 2 cfgW lightsW bufs0 0 (by decide)⟩

/-- Forward view-space depth of a light, `-viewPos.z`, exactly the quantity
the depth pre-filter of clustering.cs.wgsl line 55 tests. -/
def lightViewDepth [LinearOrderedField α] (cfg : ClusteringUniforms α)
    (light : Light α) : α :=
  -(lightViewPos cfg light).z

/-- Every in-range cluster's far depth bound is at most `far`. -/
theorem clusterBounds_zFar_le_far [LinearOrderedField α] (cfg : ClusteringUniforms α)
    (c : ℕ) (hc : c < totalClusters cfg) (hnf : cfg.near ≤ cfg.far) :
    (clusterBoundsOf cfg c).zFar ≤ cfg.far := by
  unfold totalClusters at hc
  have hXY : 0 < cfg.clustersX * cfg.clustersY := by
    rcases Nat.eq_zero_or_pos (cfg.clustersX * cfg.clustersY) with h0 | h
    · rw [h0, Nat.zero_mul] at hc; omega
    · exact h
  have hcZ : 0 < cfg.clustersZ := by
    rcases Nat.eq_zero_or_pos cfg.clustersZ with h0 | h
    · rw [h0, Nat.mul_zero] at hc; omega
    · exact h
  have hdiv : c / (cfg.clustersX * cfg.clustersY) < cfg.clustersZ :=
    (Nat.div_lt_iff_lt_mul hXY).mpr (by rw [Nat.mul_comm]; exact hc)
  have hle : ((c / (cfg.clustersX * cfg.clustersY) + 1 : ℕ) : α) ≤ (cfg.clustersZ : α) :=
    Nat.cast_le.mpr (Nat.succ_le_of_lt hdiv)
  have hcZa : (0 : α) < (cfg.clustersZ : α) := by exact_mod_cast hcZ
  have key : (cfg.far - cfg.near) / (cfg.clustersZ : α)
      * ((c / (cfg.clustersX * cfg.clustersY) + 1 : ℕ) : α) ≤ cfg.far - cfg.near := by
    rw [div_mul_eq_mul_div, div_le_iff₀ hcZa]
    exact mul_le_mul_of_nonneg_left hle (by linarith)
  simp only [clusterBoundsOf]
  linarith

/-- C5 (amended).  A light whose forward view-space depth exceeds
`far + lightRadius` is rejected by the depth pre-filter for every in-range
cluster, hence appears in no cluster's accepted list and contributes to no
cluster's count.  (The claim's original form, with Euclidean distance from
the camera in place of forward view-space depth, is refuted by
`C5_distant_light_assigned_counterexample`.) -/
theorem C5_deep_light_in_no_cluster [LinearOrderedField α] (atan2 : α → α → α)
    (asin : α → α) (lightRadius : α) (cfg : ClusteringUniforms α)
    (lightData : LightSet α) (i c : ℕ) (hc : c < totalClusters cfg)
    (hnf : cfg.near ≤ cfg.far)
    (hdeep : cfg.far + lightRadius < lightViewDepth cfg (lightData.lights i)) :
    i ∉ clusterAcceptedLights atan2 asin lightRadius cfg lightData c := by
  intro hmem
  obtain ⟨_, htest⟩ :=
    clusterAcceptedLights_mem atan2 asin lightRadius cfg lightData c i hmem
  have hz : (clusterBoundsOf cfg c).zFar + lightRadius
      < -(lightViewPos cfg (lightData.lights i)).z := by
    have := clusterBounds_zFar_le_far cfg c hc hnf
    unfold lightViewDepth at hdeep
    linarith
  simp only [lightIntersectsCluster] at htest
  rw [if_pos (Or.inr hz)] at htest
  exact Bool.false_ne_true htest

/-- One light 2000 units in front of the camera (far beyond `far`), for the
C5 witness. -/
def lightsDeepW : LightSet ℚ :=
  ⟨1, fun _ => ⟨⟨0, 0, -2000⟩, ⟨1, 1, 1⟩⟩⟩

/-- Witness for the amended C5 at a concrete executable input. -/
theorem C5_deep_light_in_no_cluster_witness :
    0 < totalClusters cfgW ∧ cfgW.near ≤ cfgW.far ∧
      cfgW.far + 2 < lightViewDepth cfgW (lightsDeepW.lights 0) ∧
      0 ∉ clusterAcceptedLights atanQ asinQ 2 cfgW lightsDeepW 0 :=
  ⟨by decide, by norm_num [cfgW],
    by norm_num [cfgW, lightsDeepW, lightViewDepth, lightViewPos, Mat4.mulVec, Mat4.id],
    C5_deep_light_in_no_cluster atanQ asinQ 2 cfgW lightsDeepW 0 0
      (by decide) (by norm_num [cfgW])
      (by norm_num [cfgW, lightsDeepW, lightViewDepth, lightViewPos, Mat4.mulVec, Mat4.id])⟩

/-- C4.  With `maxLightsPerCluster = 2`, three active lights that all pass
the intersection test for the single cluster of a 1-cluster grid: assignment
accepts exactly the first two light indices in light order — `counts[0] = 2`,
the cluster's list is exactly `[0, 1]`, and the third intersecting light is
silently dropped with no error or overflow signal.  Determinism for a fixed
light ordering is inherent: the engine is a pure function and the accepted
pair is pinned to the explicit list `[0, 1]`. -/
theorem C4_capacity_truncates [LinearOrderedField α] (atan2 : α → α → α) (asin : α → α)
    (lightRadius : α) (cfg : ClusteringUniforms α) (lightData : LightSet α)
    (bufs : ClusterBuffers) (hmax : cfg.maxLightsPerCluster = 2)
    (hnum : lightData.numLights = 3) (htot : totalClusters cfg = 1)
    (hall : ∀ i, i < 3 →
      lightIntersectsCluster atan2 asin lightRadius cfg 0 (lightData.lights i) = true) :
    clusterAcceptedLights atan2 asin lightRadius cfg lightData 0 = [0, 1] ∧
      (doLightClustering atan2 asin lightRadius cfg lightData bufs).counts 0 = 2 := by
  have h0 := hall 0 (by norm_num)
  have h1 := hall 1 (by norm_num)
  have h2 := hall 2 (by norm_num)
  have hlist : clusterAcceptedLights atan2 asin lightRadius cfg lightData 0 = [0, 1] := by
    rw [clusterAcceptedLights_eq_take_filter, hnum, hmax]
    have hr : List.range 3 = [0, 1, 2] := rfl
    rw [hr]
    simp [List.filter_cons, h0, h1, h2]
  refine ⟨hlist, ?_⟩
  rw [doLightClustering_counts atan2 asin lightRadius cfg lightData bufs 0
    (by rw [htot]; exact Nat.one_pos), hlist]
  rfl

/-- Concrete configuration for the C4 witness: 1x1x1 grid with capacity 2. -/
def cfg4W : ClusteringUniforms ℚ :=
  ⟨Mat4.id, Mat4.id, 1000, 1000, 1 / 10, 1000, 1, 1, 1, 2⟩

/-- Three identical lights 10 units in front of the camera, for the C4
witness. -/
def lights4W : LightSet ℚ :=
  ⟨3, fun _ => ⟨⟨0, 0, -10⟩, ⟨1, 1, 1⟩⟩⟩

/-- Witness for C4 at a concrete executable input. -/
theorem C4_capacity_truncates_witness :
    cfg4W.maxLightsPerCluster = 2 ∧ lights4W.numLights = 3 ∧ totalClusters cfg4W = 1 ∧
      (∀ i, i < 3 →
        lightIntersectsCluster atanQ asinQ 2 cfg4W 0 (lights4W.lights i) = true) ∧
      (clusterAcceptedLights atanQ asinQ 2 cfg4W lights4W 0 = [0, 1] ∧
        (doLightClustering atanQ asinQ 2 cfg4W lights4W bufs0).counts 0 = 2) := by
  have hall : ∀ i, i < 3 →
      lightIntersectsCluster atanQ asinQ 2 cfg4W 0 (lights4W.lights i) = true := by
    intro i _
    simp only [lightIntersectsCluster, clusterBoundsOf, lightViewPos, Mat4.mulVec,
      Mat4.id, atanQ, asinQ, cfg4W, lights4W, piLit]
    norm_num
  exact ⟨rfl, rfl, rfl, hall,
    C4_capacity_truncates atanQ asinQ 2 cfg4W lights4W bufs0 rfl rfl rfl hall⟩

/-- Filtering a range for one value keeps exactly that value when covered. -/
theorem range_filter_eq_single (c : ℕ) : ∀ n : ℕ,
    (List.range n).filter (fun g => g == c) = if c < n then [c] else [] := by
  intro n
  induction n with
  | zero => simp
  | succ m ih =>
      rw [List.range_succ, List.filter_append, ih]
      by_cases h : c < m
      · have hne : (m == c) = false := by
          simp [Nat.ne_of_gt h]
        rw [if_pos h, if_pos (by omega)]
        simp [hne]
      · rcases Nat.eq_or_lt_of_le (Nat.le_of_not_lt h) with he | hlt
        · rw [if_neg h, if_pos (by omega)]
          simp [he]
        · rw [if_neg h, if_neg (by omega)]
          have hne : (m == c) = false := by
            simp; omega
          simp [hne]

/-- C10 (implicit).  The clustering dispatch is memory-safe and covers each
cluster exactly once: (1) every invocation whose flat thread id is at least
`totalClusters` returns before touching either buffer; (2) the dispatch of
`ceil(numClusters/64)` workgroups leaves every `counts` entry beyond the
cluster table and (3) every `indices` entry beyond
`totalClusters * maxLightsPerCluster` untouched; (4) among all dispatched
thread ids exactly one equals a given in-range cluster id `c` — the unique
writer of `counts[c]`, a thread writing `counts` only at its own id (per
`clusterThread`); and (5) that cluster's count is fully determined by the
inputs, independent of prior buffer contents. -/
theorem C10_dispatch_safety [LinearOrderedField α] (atan2 : α → α → α) (asin : α → α)
    (lightRadius : α) (cfg : ClusteringUniforms α) (lightData : LightSet α)
    (c : ℕ) (hc : c < totalClusters cfg) :
    (∀ gid bufs, totalClusters cfg ≤ gid →
        clusterThread atan2 asin lightRadius cfg lightData gid bufs = bufs) ∧
      (∀ bufs j, totalClusters cfg ≤ j →
        (doLightClustering atan2 asin lightRadius cfg lightData bufs).counts j
          = bufs.counts j) ∧
      (∀ bufs j, totalClusters cfg * cfg.maxLightsPerCluster ≤ j →
        (doLightClustering atan2 asin lightRadius cfg lightData bufs).indices j
          = bufs.indices j) ∧
      ((List.range (numWorkgroups cfg * 64)).filter (fun g => g == c)) = [c] ∧
      (∀ bufs, (doLightClustering atan2 asin lightRadius cfg lightData bufs).counts c
        = (clusterAcceptedLights atan2 asin lightRadius cfg lightData c).length) := by
  refine ⟨?_, ?_, ?_, ?_, ?_⟩
  · intro gid bufs hgid
    exact clusterThread_out atan2 asin lightRadius cfg lightData gid bufs hgid
  · intro bufs j hj
    unfold doLightClustering
    rw [foldThreads_counts, if_neg (by omega)]
  · intro bufs j hj
    exact foldThreads_indices_high atan2 asin lightRadius cfg lightData j hj _ _
  · rw [range_filter_eq_single c (numWorkgroups cfg * 64),
      if_pos (lt_of_lt_of_le hc (totalClusters_le_dispatch cfg))]
  · intro bufs
    exact doLightClustering_counts atan2 asin lightRadius cfg lightData bufs c hc

/-- Witness for C10 at a concrete executable input. -/
theorem C10_dispatch_safety_witness :
    0 < totalClusters cfgW ∧
      ((List.range (numWorkgroups cfgW * 64)).filter (fun g => g == 0)) = [0] :=
  ⟨by decide, (C10_dispatch_safety atanQ asinQ 2 cfgW lightsW 0 (by decide)).2.2.2.1⟩

/-- Swizzle `v.xyz` of a `vec4`. -/
def Vec4.xyz [LinearOrderedField α] (v : Vec4 α) : Vec3 α := ⟨v.x, v.y, v.z⟩

/-- WGSL `normalize(v)` = `v / length(v)`, relative to `sqrtF`. -/
def normalizeV [LinearOrderedField α] (sqrtF : α → α) (v : Vec3 α) : Vec3 α :=
  v.sdiv (vlength sqrtF v)

/-- WGSL `u32(clamp(floor(v), 0.0, f32(n) - 1.0))`: the clamped floor is a
nonnegative integer-valued float, so the `u32` conversion is `Int.toNat`. -/
def u32clampIdx [LinearOrderedField α] [FloorRing α] (v : α) (n : ℕ) : ℕ :=
  (min (max ⌊v⌋ 0) ((n : ℤ) - 1)).toNat

/-- WGSL `i32(x)` for `f32` input: truncation toward zero. -/
def i32trunc [LinearOrderedField α] [FloorRing α] (x : α) : ℤ :=
  if 0 ≤ x then ⌊x⌋ else -⌊-x⌋

/-- WGSL `vec4<f32>(v, w)` from a `vec3` and a scalar. -/
def vec4of [LinearOrderedField α] (v : Vec3 α) (w : α) : Vec4 α :=
  ⟨v.x, v.y, v.z, w⟩

/-- Struct `FragmentInput` of forward_plus.fs.wgsl: interpolated world
position and normal, texture coordinates, and the builtin fragment position
(pixel coordinates in `.xy`, device depth in `.z`). -/
structure FragmentInput (α : Type) where
  worldPos : Vec4 α
  worldNormal : Vec4 α
  uv : Vec2 α
  fragCoord : Vec4 α

/-- Struct `FragmentOutput` shared by both fragment shaders. -/
structure FragmentOutput (α : Type) where
  color : Vec4 α
deriving DecidableEq

/-- Embeds the cluster-index derivation of forward_plus.fs.wgsl lines 40-61:
clamped/floored pixel tiles in X/Y, view depth recovered by applying
`invProjMat` to the NDC position rebuilt from `fragCoord` (including the
shader's `fragCoord.z * 2 - 1` remap), then a clamped/floored linear depth
slice, flattened as `x + y*countX + z*countX*countY`. -/
def forwardPlusClusterIndex [LinearOrderedField α] [FloorRing α]
    (cfg : ClusteringUniforms α) (fragCoord : Vec4 α) : ℕ :=
  let screenW := cfg.screenWidth
  let screenH := cfg.screenHeight
  let clusterXIndex := u32clampIdx (fragCoord.x / (screenW / (cfg.clustersX : α))) cfg.clustersX
  let clusterYIndex := u32clampIdx (fragCoord.y / (screenH / (cfg.clustersY : α))) cfg.clustersY
  let ndcPos : Vec4 α :=
    ⟨fragCoord.x / screenW * 2 - 1, fragCoord.y / screenH * 2 - 1, fragCoord.z * 2 - 1, 1⟩
  let viewPos4 := cfg.invProjMat.mulVec ndcPos
  let viewPos : Vec3 α := (viewPos4.xyz).sdiv viewPos4.w
  let viewDepth := -viewPos.z
  let clusterZIndex := u32clampIdx
    ((viewDepth - cfg.near) / (cfg.far - cfg.near) * (cfg.clustersZ : α)) cfg.clustersZ
  clusterXIndex + clusterYIndex * cfg.clustersX
    + clusterZIndex * cfg.clustersX * cfg.clustersY

/-- Embeds the fragment entry point of forward_plus.fs.wgsl lines 22-89.
The albedo comes from the material diffuse texture sample (`if (true)`
branch, line 31), modelled as a function of the interpolated `uv`. -/
def forwardPlusShade [LinearOrderedField α] [FloorRing α] (sqrtF : α → α)
    (lightRadius : α) (cfg : ClusteringUniforms α) (lightData : LightSet α)
    (counts indices : ℕ → ℕ) (diffuseTex : Vec2 α → Vec3 α)
    (input : FragmentInput α) : FragmentOutput α :=
  let fragPos := input.worldPos.xyz
  let normal := normalizeV sqrtF input.worldNormal.xyz
  let albedo := diffuseTex input.uv
  let clusterIndex := forwardPlusClusterIndex cfg input.fragCoord
  let numLightsInCluster := counts clusterIndex
  let lighting := (List.range numLightsInCluster).foldl
    (fun lighting i =>
      let lightIndex := indices (clusterIndex * cfg.maxLightsPerCluster + i)
      let light := lightData.lights lightIndex
      let toLight := light.position.sub fragPos
      let dist := vlength sqrtF toLight
      if dist ≤ lightRadius then
        let atten := 1 - dist / lightRadius
        let L := toLight.sdiv dist
        let NdotL := max (Vec3.dot normal L) 0
        lighting.add ((light.color.scale NdotL).scale atten)
      else lighting)
    Vec3.zero
  ⟨vec4of (albedo.cmul lighting) 1⟩

/-- Struct `FragmentInput` of clustered_deferred_fullscreen.fs.wgsl: only
`uv` and the builtin fragment position. -/
structure DeferredFragmentInput (α : Type) where
  uv : Vec2 α
  fragCoord : Vec4 α

/-- Embeds the cluster-index derivation of
clustered_deferred_fullscreen.fs.wgsl lines 35-45: identical pixel tiling in
X/Y, but view depth computed by transforming the G-buffer world position with
`viewMat`. -/
def deferredClusterIndex [LinearOrderedField α] [FloorRing α]
    (cfg : ClusteringUniforms α) (fragCoord : Vec4 α) (fragPos : Vec3 α) : ℕ :=
  let clusterX := u32clampIdx (fragCoord.x / (cfg.screenWidth / (cfg.clustersX : α))) cfg.clustersX
  let clusterY := u32clampIdx (fragCoord.y / (cfg.screenHeight / (cfg.clustersY : α))) cfg.clustersY
  let viewPos := (cfg.viewMat.mulVec ⟨fragPos.x, fragPos.y, fragPos.z, 1⟩).xyz
  let viewDepth := -viewPos.z
  let clusterZ := u32clampIdx
    ((viewDepth - cfg.near) / (cfg.far - cfg.near) * (cfg.clustersZ : α)) cfg.clustersZ
  clusterX + clusterY * cfg.clustersX + clusterZ * cfg.clustersX * cfg.clustersY

/-- Embeds the fragment entry point of clustered_deferred_fullscreen.fs.wgsl
lines 22-69: G-buffer texels fetched at the truncated integer pixel
coordinate, then the same accumulation loop as Forward+. -/
def clusteredDeferredShade [LinearOrderedField α] [FloorRing α] (sqrtF : α → α)
    (lightRadius : α) (cfg : ClusteringUniforms α) (lightData : LightSet α)
    (counts indices : ℕ → ℕ) (gPositionTex gNormalTex : ℤ → ℤ → Vec4 α)
    (gAlbedoTex : ℤ → ℤ → Vec3 α) (input : DeferredFragmentInput α) :
    FragmentOutput α :=
  let px := i32trunc input.fragCoord.x
  let py := i32trunc input.fragCoord.y
  let storedPos := gPositionTex px py
  let fragPos := storedPos.xyz
  let storedNorm := gNormalTex px py
  let normal := normalizeV sqrtF storedNorm.xyz
  let albedoColor := gAlbedoTex px py
  let clusterIndex := deferredClusterIndex cfg input.fragCoord fragPos
  let lightCount := counts clusterIndex
  let lightingAccum := (List.range lightCount).foldl
    (fun lightingAccum i =>
      let lightIndex := indices (clusterIndex * cfg.maxLightsPerCluster + i)
      let light := lightData.lights lightIndex
      let toLight := light.position.sub fragPos
      let dist := vlength sqrtF toLight
      if dist ≤ lightRadius then
        let L := toLight.sdiv dist
        let NdotL := max (Vec3.dot normal L) 0
        let atten := 1 - dist / lightRadius
        lightingAccum.add ((light.color.scale NdotL).scale atten)
      else lightingAccum)
    Vec3.zero
  ⟨vec4of (albedoColor.cmul lightingAccum) 1⟩

instance [LinearOrderedField α] : Add (Vec3 α) := ⟨Vec3.add⟩

instance [LinearOrderedField α] : Zero (Vec3 α) := ⟨Vec3.zero⟩

theorem Vec3.add_def [LinearOrderedField α] (a b : Vec3 α) : a + b = Vec3.add a b := rfl

theorem Vec3.zero_def [LinearOrderedField α] : (0 : Vec3 α) = Vec3.zero := rfl

instance [LinearOrderedField α] : AddCommMonoid (Vec3 α) where
  add_assoc a b c := by
    simp only [Vec3.add_def, Vec3.add]
    ext <;> ring
  zero_add a := by
    simp only [Vec3.add_def, Vec3.zero_def, Vec3.add, Vec3.zero]
    ext <;> ring
  add_zero a := by
    simp only [Vec3.add_def, Vec3.zero_def, Vec3.add, Vec3.zero]
    ext <;> ring
  add_comm a b := by
    simp only [Vec3.add_def, Vec3.add]
    ext <;> ring
  nsmul := nsmulRec

/-- Modelled from the spec (sections 4.3/4.4): the per-light shading
contribution in the spec's own words — `attenuation = 1 - dist/lightRadius`
for `dist ≤ lightRadius`, Lambertian term `max(dot(N, L), 0)` with `L` the
unit vector toward the light, contribution
`lightColor * NdotL * attenuation`, and exactly zero beyond `lightRadius`.
This definition exists to be compared against the shader loops. -/
def specLightContribution [LinearOrderedField α] (sqrtF : α → α) (lightRadius : α)
    (fragPos normal : Vec3 α) (light : Light α) : Vec3 α :=
  let toLight := light.position.sub fragPos
  let dist := vlength sqrtF toLight
  if dist ≤ lightRadius then
    light.color.scale (max (Vec3.dot normal (toLight.sdiv dist)) 0 * (1 - dist / lightRadius))
  else 0

/-- Folding accumulation of pointwise contributions is summation. -/
theorem foldl_add_eq_sum [LinearOrderedField α] (g : ℕ → Vec3 α) :
    ∀ (l : List ℕ) (z : Vec3 α), l.foldl (fun acc i => acc + g i) z = z + (l.map g).sum := by
  intro l
  induction l with
  | nil => intro z; simp
  | cons a t ih =>
      intro z
      rw [List.foldl_cons, ih, List.map_cons, List.sum_cons, add_assoc]

/-- The accumulation step of both shader loops adds exactly the spec
contribution of the iterated light. -/
theorem shadeStep_eq_add_contribution [LinearOrderedField α] (sqrtF : α → α)
    (lightRadius : α) (fragPos normal lighting : Vec3 α) (light : Light α) :
    (let toLight := light.position.sub fragPos
     let dist := vlength sqrtF toLight
     if dist ≤ lightRadius then
       let atten := 1 - dist / lightRadius
       let L := toLight.sdiv dist
       let NdotL := max (Vec3.dot normal L) 0
       lighting.add ((light.color.scale NdotL).scale atten)
     else lighting)
      = lighting + specLightContribution sqrtF lightRadius fragPos normal light := by
  simp only [specLightContribution]
  by_cases h : vlength sqrtF (light.position.sub fragPos) ≤ lightRadius
  · rw [if_pos h, if_pos h]
    simp only [Vec3.add_def, Vec3.add, Vec3.scale]
    ext <;> ring
  · rw [if_neg h, if_neg h]
    simp [Vec3.add_def, Vec3.zero_def, Vec3.add, Vec3.zero]

/-- The shading loop of either fragment shader, folded over any index list,
accumulates exactly the sum of the spec contributions of the iterated
lights. -/
theorem shade_fold_eq_sum [LinearOrderedField α] (sqrtF : α → α) (lightRadius : α)
    (fragPos normal : Vec3 α) (lightOf : ℕ → Light α) :
    ∀ (l : List ℕ) (z : Vec3 α),
      (l.foldl (fun lighting i =>
        let light := lightOf i
        let toLight := light.position.sub fragPos
        let dist := vlength sqrtF toLight
        if dist ≤ lightRadius then
          let atten := 1 - dist / lightRadius
          let L := toLight.sdiv dist
          let NdotL := max (Vec3.dot normal L) 0
          lighting.add ((light.color.scale NdotL).scale atten)
        else lighting) z)
        = z + (l.map (fun i =>
            specLightContribution sqrtF lightRadius fragPos normal (lightOf i))).sum := by
  intro l
  induction l with
  | nil => intro z; simp
  | cons a t ih =>
      intro z
      rw [List.foldl_cons, ih, List.map_cons, List.sum_cons, ← add_assoc]
      congr 1
      exact shadeStep_eq_add_contribution sqrtF lightRadius fragPos normal z (lightOf a)

/-- C8.  For every shaded fragment, each shading loop reads
`counts[clusterIndex]` and iterates exactly that many `indices[]` entries;
each iterated light contributes
`lightColor * max(dot(N,L),0) * (1 - dist/lightRadius)` when
`dist ≤ lightRadius` and exactly zero otherwise
(`specLightContribution`, written from the spec's formula); the fragment
output is the albedo times the summed contributions, with alpha 1 — for the
Forward+ shader and the Clustered Deferred fullscreen shader alike. -/
theorem C8_shading_loop_sums [LinearOrderedField α] [FloorRing α] (sqrtF : α → α)
    (lightRadius : α) (cfg : ClusteringUniforms α) (lightData : LightSet α)
    (counts indices : ℕ → ℕ) (diffuseTex : Vec2 α → Vec3 α)
    (gPositionTex gNormalTex : ℤ → ℤ → Vec4 α) (gAlbedoTex : ℤ → ℤ → Vec3 α)
    (input : FragmentInput α) (dinput : DeferredFragmentInput α) :
    (forwardPlusShade sqrtF lightRadius cfg lightData counts indices diffuseTex input
      = ⟨vec4of ((diffuseTex input.uv).cmul
          (((List.range (counts (forwardPlusClusterIndex cfg input.fragCoord))).map
            (fun i => specLightContribution sqrtF lightRadius input.worldPos.xyz
              (normalizeV sqrtF input.worldNormal.xyz)
              (lightData.lights (indices
                (forwardPlusClusterIndex cfg input.fragCoord * cfg.maxLightsPerCluster
                  + i))))).sum)) 1⟩) ∧
    (clusteredDeferredShade sqrtF lightRadius cfg lightData counts indices
        gPositionTex gNormalTex gAlbedoTex dinput
      = ⟨vec4of ((gAlbedoTex (i32trunc dinput.fragCoord.x) (i32trunc dinput.fragCoord.y)).cmul
          (((List.range (counts (deferredClusterIndex cfg dinput.fragCoord
              (gPositionTex (i32trunc dinput.fragCoord.x)
                (i32trunc dinput.fragCoord.y)).xyz))).map
            (fun i => specLightContribution sqrtF lightRadius
              (gPositionTex (i32trunc dinput.fragCoord.x)
                (i32trunc dinput.fragCoord.y)).xyz
              (normalizeV sqrtF (gNormalTex (i32trunc dinput.fragCoord.x)
                (i32trunc dinput.fragCoord.y)).xyz)
              (lightData.lights (indices
                (deferredClusterIndex cfg dinput.fragCoord
                    (gPositionTex (i32trunc dinput.fragCoord.x)
                      (i32trunc dinput.fragCoord.y)).xyz * cfg.maxLightsPerCluster
                  + i))))).sum)) 1⟩) := by
  constructor
  · have key := shade_fold_eq_sum sqrtF lightRadius input.worldPos.xyz
      (normalizeV sqrtF input.worldNormal.xyz)
      (fun i => lightData.lights (indices
        (forwardPlusClusterIndex cfg input.fragCoord * cfg.maxLightsPerCluster + i)))
      (List.range (counts (forwardPlusClusterIndex cfg input.fragCoord))) Vec3.zero
    rw [show (Vec3.zero : Vec3 α) = 0 from rfl, zero_add] at key
    exact congrArg (fun v =>
      (⟨vec4of ((diffuseTex input.uv).cmul v) 1⟩ : FragmentOutput α)) key
  · have key := shade_fold_eq_sum sqrtF lightRadius
      (gPositionTex (i32trunc dinput.fragCoord.x) (i32trunc dinput.fragCoord.y)).xyz
      (normalizeV sqrtF (gNormalTex (i32trunc dinput.fragCoord.x)
        (i32trunc dinput.fragCoord.y)).xyz)
      (fun i => lightData.lights (indices
        (deferredClusterIndex cfg dinput.fragCoord
            (gPositionTex (i32trunc dinput.fragCoord.x)
              (i32trunc dinput.fragCoord.y)).xyz * cfg.maxLightsPerCluster + i)))
      (List.range (counts (deferredClusterIndex cfg dinput.fragCoord
        (gPositionTex (i32trunc dinput.fragCoord.x)
          (i32trunc dinput.fragCoord.y)).xyz))) Vec3.zero
    rw [show (Vec3.zero : Vec3 α) = 0 from rfl, zero_add] at key
    exact congrArg (fun v =>
      (⟨vec4of ((gAlbedoTex (i32trunc dinput.fragCoord.x)
        (i32trunc dinput.fragCoord.y)).cmul v) 1⟩ : FragmentOutput α)) key

/-- Clamping to a single tile always yields index 0. -/
theorem u32clampIdx_one [LinearOrderedField α] [FloorRing α] (v : α) :
    u32clampIdx v 1 = 0 := by
  simp only [u32clampIdx, Nat.cast_one]
  omega

theorem arctan_pos_of_pos {x : ℝ} (h : 0 < x) : 0 < Real.arctan x := by
  have h2 := Real.arctan_strictMono h
  rwa [Real.arctan_zero] at h2

theorem arctan_lt_self_of_pos {x : ℝ} (h0 : 0 < x) : Real.arctan x < x := by
  have ha := arctan_pos_of_pos h0
  have hb := Real.arctan_lt_pi_div_two x
  have hc := Real.lt_tan ha hb
  rwa [Real.tan_arctan] at hc

/-- WGSL `atan2(y, x)` over `ℝ` (the genuine transcendental semantics used
by the geometric theorems; only the `0 < x` branch is exercised there). -/
noncomputable def atan2R (y x : ℝ) : ℝ :=
  if 0 < x then Real.arctan (y / x)
  else if x < 0 ∧ 0 ≤ y then Real.arctan (y / x) + Real.pi
  else if x < 0 ∧ y < 0 then Real.arctan (y / x) - Real.pi
  else if x = 0 ∧ 0 < y then Real.pi / 2
  else if x = 0 ∧ y < 0 then -(Real.pi / 2)
  else 0

theorem atan2R_pos_x (y x : ℝ) (hx : 0 < x) : atan2R y x = Real.arctan (y / x) := by
  rw [atan2R, if_pos hx]

/-- Geometric membership of a view-space point in the frustum cell that the
assignment engine's bounds for flat index `c` describe: horizontal angle
within `[angleLeft, angleRight]`, vertical angle within the interval spanned
by the two computed vertical bounds, and forward depth within the half-open
depth slice `[zNear, zFar)` (half-open so that the slices partition).  The
bounds are exactly `clusterBoundsOf`, the embedding of clustering.cs.wgsl
lines 21-43; angles are measured as the shader measures them
(`atan2(component, forward depth)`). -/
def assignCellContains [LinearOrderedField α] (atan2 : α → α → α)
    (cfg : ClusteringUniforms α) (c : ℕ) (p : Vec3 α) : Prop :=
  let b := clusterBoundsOf cfg c
  let d := -p.z
  let horizAngle := atan2 p.x d
  let vertAngle := atan2 p.y d
  b.zNear ≤ d ∧ d < b.zFar ∧
    b.angleLeft ≤ horizAngle ∧ horizAngle ≤ b.angleRight ∧
    min b.angleUp b.angleDown ≤ vertAngle ∧ vertAngle ≤ max b.angleUp b.angleDown

/-- Modelled from the spec: the camera collaborator's perspective projection
(section 2 "a camera provides view/projection matrices and frustum
parameters"; `renderer.ts`, which fixes `fovYDegrees`/`aspectRatio`, and the
library routine `mat4.perspective` it feeds are not under `src/`).  WebGPU
conventions: NDC `y` up, NDC depth in `[0, 1]`, viewport transform
`px = (ndcX+1)/2*W`, `py = (1-ndcY)/2*H`; `f = cot(fovY_camera/2)` is the
focal scale, `aspect = W/H`.  `fragCoord` of a view-space point is its pixel
position with its NDC depth in `.z`, as rasterization delivers it. -/
def specProjFragCoord [LinearOrderedField α] (f W H near far : α) (p : Vec3 α) : Vec4 α :=
  let d := -p.z
  let aspect := W / H
  let ndcX := p.x * f / aspect / d
  let ndcY := p.y * f / d
  let ndcZ := far * (d - near) / (d * (far - near))
  ⟨(ndcX + 1) / 2 * W, (1 - ndcY) / 2 * H, ndcZ, 1⟩

/-- Modelled from the spec: the inverse of the camera collaborator's
perspective projection matrix (`mat4.invert(projMat)` in camera.ts; the
perspective matrix itself comes from the external `wgpu-matrix` library,
WebGPU depth-0-to-1 convention), written in closed form.
`specInvProj_recovers_view` checks it against `specProjFragCoord`. -/
def specInvProjMat [LinearOrderedField α] (f aspect near far : α) : Mat4 α :=
  ⟨⟨aspect / f, 0, 0, 0⟩,
   ⟨0, 1 / f, 0, 0⟩,
   ⟨0, 0, 0, -1⟩,
   ⟨0, 0, (near - far) / (far * near), 1 / near⟩⟩

/-- Consistency of the two spec-modelled camera artifacts: applying
`specInvProjMat` to the NDC position of a view-space point yields the point
scaled by `1/d` with `w = 1/d` (so the perspective divide recovers the
point). -/
theorem specInvProj_mulVec [LinearOrderedField α] (f aspect near far : α) (p : Vec3 α)
    (hd : -p.z ≠ 0) (hf : f ≠ 0) (ha : aspect ≠ 0) (hnear : near ≠ 0) (hfar : far ≠ 0)
    (hnf : far - near ≠ 0) :
    (specInvProjMat f aspect near far).mulVec
        ⟨p.x * f / aspect / (-p.z), p.y * f / (-p.z),
         far * ((-p.z) - near) / ((-p.z) * (far - near)), 1⟩
      = ⟨p.x / (-p.z), p.y / (-p.z), -1, 1 / (-p.z)⟩ := by
  have hz : p.z ≠ 0 := fun h => hd (by rw [h, neg_zero])
  simp only [specInvProjMat, Mat4.mulVec]
  ext
  · field_simp
    ring
  · field_simp
  · field_simp
  · field_simp
    ring

/-- The perspective divide applied to the recovered vector gives the view
point back. -/
theorem specInvProj_recovers_view [LinearOrderedField α] (p : Vec3 α) (hd : -p.z ≠ 0) :
    (Vec4.xyz ⟨p.x / (-p.z), p.y / (-p.z), -1, 1 / (-p.z)⟩).sdiv (1 / (-p.z)) = p := by
  have hz : p.z ≠ 0 := fun h => hd (by rw [h, neg_zero])
  simp only [Vec4.xyz, Vec3.sdiv]
  ext
  · field_simp
  · field_simp
  · field_simp

/-- Clustering uniforms of the C1 mismatch scene: 1x2x1 grid, 1000x1000
screen, near 0.1, far 1000, identity view matrix, inverse projection of the
spec-modelled camera with focal scale `f = 2` and aspect 1. -/
noncomputable def cfgC1 : ClusteringUniforms ℝ :=
  ⟨Mat4.id, specInvProjMat 2 1 (1 / 10) 1000, 1000, 1000, 1 / 10, 1000, 1, 2, 1, 512⟩

/-- View-space point of the C1 mismatch: on the vertical centre plane,
slightly below the optical axis, 10 units in front of the camera. -/
noncomputable def pC1 : Vec3 ℝ := ⟨0, -1, -10⟩

/-- C1.  The two cluster-index derivations disagree: the view-space point
`pC1` lies in the geometric cell that the assignment engine's bounds
describe for flat index 0 (grid 1x2x1: `clusterY = 0`, vertical angular span
`[-fovY/2, 0]`, i.e. below the axis), yet the shading-side derivation from
the same point's fragment coordinates (pixel `(500, 600)`, lower half of the
screen) yields flat index 1.  The vertical orientations of the two
derivations are opposite, so shaded fragments read the light list of the
mirror-image cluster. -/
theorem C1_cluster_derivation_mismatch :
    assignCellContains atan2R cfgC1 0 pC1 ∧
      forwardPlusClusterIndex cfgC1
        (specProjFragCoord 2 1000 1000 (1 / 10) 1000 pC1) = 1 := by
  constructor
  · have h3 : (0 : ℝ) < Real.arctan (1 / 10) := arctan_pos_of_pos (by norm_num)
    have h4 : Real.arctan (1 / 10) < 1 / 10 := arctan_lt_self_of_pos (by norm_num)
    have h1 : atan2R 0 10 = 0 := by
      rw [atan2R_pos_x 0 10 (by norm_num)]
      norm_num [Real.arctan_zero]
    have h2 : atan2R (-1) 10 = -Real.arctan (1 / 10) := by
      rw [atan2R_pos_x (-1) 10 (by norm_num)]
      rw [show ((-1 : ℝ)) / 10 = -(1 / 10) by norm_num, Real.arctan_neg]
    simp only [assignCellContains, clusterBoundsOf, cfgC1, pC1, piLit]
    norm_num [h1, h2, min_def, max_def]
    constructor
    · linarith
    · linarith
  · have hy : (specProjFragCoord 2 1000 1000 (1 / 10) 1000 pC1).y = 600 := by
      simp only [specProjFragCoord, pC1]
      norm_num
    have hfloor : ⌊(6 / 5 : ℝ)⌋ = 1 := by
      rw [Int.floor_eq_iff]
      norm_num
    have hYidx : u32clampIdx ((600 : ℝ) / (1000 / ((2 : ℕ) : ℝ))) 2 = 1 := by
      rw [show ((600 : ℝ) / (1000 / ((2 : ℕ) : ℝ))) = 6 / 5 by norm_num]
      rw [u32clampIdx, hfloor]
      norm_num
    simp only [forwardPlusClusterIndex, cfgC1]
    rw [u32clampIdx_one, u32clampIdx_one, hy, hYidx]

/-- Modelled from the spec (section 4.2): the documented conservative
sphere-vs-cell test — depth-slab overlap (forward depth within
`[zNear - lightRadius, zFar + lightRadius]`) and, independently per axis, 1D
interval overlap between the light's angular interval (its angular centre
plus/minus the half-width `asin(min(1, lightRadius / max(depth, eps)))`) and
the cluster's angular span (the interval between the two computed bound
values).  This is the approximation the claim's "no false positives / false
negatives only at overflow" is stated against; the engine's vertical
comparison in clustering.cs.wgsl deviates from it. -/
def specDocOverlap [LinearOrderedField α] (atan2 : α → α → α) (asin : α → α)
    (lightRadius : α) (cfg : ClusteringUniforms α) (clusterIndex : ℕ)
    (light : Light α) : Prop :=
  let b := clusterBoundsOf cfg clusterIndex
  let v := lightViewPos cfg light
  let lz := -v.z
  let horizAngle := atan2 v.x lz
  let vertAngle := atan2 v.y lz
  let half := asin (min 1 (lightRadius / max lz (1 / 1000)))
  (b.zNear - lightRadius ≤ lz ∧ lz ≤ b.zFar + lightRadius) ∧
    (horizAngle - half ≤ max b.angleLeft b.angleRight ∧
      min b.angleLeft b.angleRight ≤ horizAngle + half) ∧
    (vertAngle - half ≤ max b.angleUp b.angleDown ∧
      min b.angleUp b.angleDown ≤ vertAngle + half)

/-- Single light of the C3 divergence scene: view-space position
`(0, 4, -4)` (45 degrees above the axis, depth 4, half-angle
`asin(1/2) = pi/6`). -/
noncomputable def lightsC3 : LightSet ℝ :=
  ⟨1, fun _ => ⟨⟨0, 4, -4⟩, ⟨1, 1, 1⟩⟩⟩

theorem lightViewPos_C3 : lightViewPos cfgC1 (lightsC3.lights 0) = ⟨0, 4, -4⟩ := by
  simp only [lightViewPos, cfgC1, lightsC3, Mat4.mulVec, Mat4.id, Vec3.mk.injEq]
  norm_num

theorem clusterBounds_C3 :
    clusterBoundsOf cfgC1 1
      = ⟨-(15707963 / 40000000), 15707963 / 40000000, 15707963 / 40000000, 0,
         1 / 10, 1000⟩ := by
  simp only [clusterBoundsOf, cfgC1, piLit, ClusterBounds.mk.injEq]
  norm_num

theorem arcsin_one_half_pi_six : Real.arcsin (1 / 2) = Real.pi / 6 := by
  have hpi := Real.pi_pos
  rw [← Real.sin_pi_div_six,
    Real.arcsin_sin (by linarith) (by linarith)]

theorem atan2R_C3_horiz : atan2R 0 4 = 0 := by
  rw [atan2R_pos_x 0 4 (by norm_num)]
  norm_num [Real.arctan_zero]

theorem atan2R_C3_vert : atan2R 4 4 = Real.pi / 4 := by
  rw [atan2R_pos_x 4 4 (by norm_num)]
  norm_num [Real.arctan_one]

theorem lightIntersects_C3_false :
    lightIntersectsCluster atan2R Real.arcsin 2 cfgC1 1 (lightsC3.lights 0) = false := by
  have h3 := Real.pi_gt_three
  simp only [lightIntersectsCluster, lightViewPos_C3, clusterBounds_C3]
  norm_num [atan2R_C3_horiz, atan2R_C3_vert, arcsin_one_half_pi_six, min_def, max_def]
  intro _ _ _
  linarith

/-- C3.  Code-bug evaluation: light `(0, 4, -4)` overlaps cluster 1 of the
1x2x1 grid under the spec's documented conservative per-axis test
(`specDocOverlap`), capacity is free (512), yet the engine's vertical
comparison — which tests the light's interval against the wrong ends of the
cluster's vertical span (`lightAngleUp < angleDown || lightAngleDown >
angleUp` with `angleUp ≤ angleDown`), thereby accepting only lights whose
vertical interval contains the whole span — rejects it: the accepted list is
empty and the written count is 0.  A false negative without overflow, against
both the spec and the shader's own "no vertical overlap" comment. -/
theorem C3_vertical_test_false_negative :
    specDocOverlap atan2R Real.arcsin 2 cfgC1 1 (lightsC3.lights 0) ∧
      clusterAcceptedLights atan2R Real.arcsin 2 cfgC1 lightsC3 1 = [] ∧
      (doLightClustering atan2R Real.arcsin 2 cfgC1 lightsC3 bufs0).counts 1 = 0 ∧
      0 < cfgC1.maxLightsPerCluster := by
  have hfalse2 : lightIntersectsCluster atan2R Real.arcsin 2 cfgC1 1
      ⟨⟨0, 4, -4⟩, ⟨1, 1, 1⟩⟩ = false := lightIntersects_C3_false
  have hempty : clusterAcceptedLights atan2R Real.arcsin 2 cfgC1 lightsC3 1 = [] := by
    rw [clusterAcceptedLights_eq_take_filter]
    simp [lightsC3, hfalse2]
  have htot : (1 : ℕ) < totalClusters cfgC1 := by
    simp [totalClusters, cfgC1]
  refine ⟨?_, hempty, ?_, ?_⟩
  · have h3 := Real.pi_gt_three
    have h315 := Real.pi_lt_d2
    simp only [specDocOverlap, lightViewPos_C3, clusterBounds_C3]
    norm_num [atan2R_C3_horiz, atan2R_C3_vert, arcsin_one_half_pi_six, min_def, max_def]
    refine ⟨⟨by linarith, by linarith⟩, by linarith, by linarith⟩
  · rw [doLightClustering_counts atan2R Real.arcsin 2 cfgC1 lightsC3 bufs0 1 htot, hempty]
    rfl
  · simp [cfgC1]

/-- Clustering uniforms of the C5 counterexample scene: 1x1x1 grid. -/
noncomputable def cfgC5 : ClusteringUniforms ℝ :=
  ⟨Mat4.id, specInvProjMat 2 1 (1 / 10) 1000, 1000, 1000, 1 / 10, 1000, 1, 1, 1, 512⟩

/-- Single light of the C5 counterexample: view-space position
`(2000, 0, -1)` — Euclidean distance from the camera far beyond
`far + lightRadius`, but forward depth only 1. -/
noncomputable def lightsC5 : LightSet ℝ :=
  ⟨1, fun _ => ⟨⟨2000, 0, -1⟩, ⟨1, 1, 1⟩⟩⟩

theorem lightViewPos_C5 : lightViewPos cfgC5 (lightsC5.lights 0) = ⟨2000, 0, -1⟩ := by
  simp only [lightViewPos, cfgC5, lightsC5, Mat4.mulVec, Mat4.id, Vec3.mk.injEq]
  norm_num

theorem clusterBounds_C5 :
    clusterBoundsOf cfgC5 0
      = ⟨-(15707963 / 40000000), 15707963 / 40000000, 15707963 / 40000000,
         -(15707963 / 40000000), 1 / 10, 1000⟩ := by
  simp only [clusterBoundsOf, cfgC5, piLit, ClusterBounds.mk.injEq]
  norm_num

theorem lightIntersects_C5_true :
    lightIntersectsCluster atan2R Real.arcsin 2 cfgC5 0 (lightsC5.lights 0) = true := by
  have h3 := Real.pi_gt_three
  have h315 := Real.pi_lt_d2
  have hlt := Real.arctan_lt_pi_div_two 2000
  have hgt := Real.neg_pi_div_two_lt_arctan 2000
  have hatanH : atan2R 2000 1 = Real.arctan 2000 := by
    rw [atan2R_pos_x 2000 1 (by norm_num)]
    norm_num
  have hatan0 : atan2R 0 1 = 0 := by
    rw [atan2R_pos_x 0 1 (by norm_num)]
    norm_num [Real.arctan_zero]
  simp only [lightIntersectsCluster, lightViewPos_C5, clusterBounds_C5]
  norm_num [hatanH, hatan0, Real.arcsin_one, min_def, max_def]
  refine ⟨⟨by linarith, by linarith⟩, by linarith⟩

/-- C5 counterexample.  The claim as stated is false: this light's Euclidean
distance from the camera, `sqrt(2000^2 + 1) > 1002 = far + lightRadius`, yet
the engine assigns it to cluster 0 (its forward view-space depth is only 1,
so the depth pre-filter passes, and with `lightRadius / depth ≥ 1` its
angular half-width is `asin(1) = pi/2`, so both angular tests pass). -/
theorem C5_distant_light_assigned_counterexample :
    cfgC5.far + 2 < vlength Real.sqrt (lightsC5.lights 0).position ∧
      clusterAcceptedLights atan2R Real.arcsin 2 cfgC5 lightsC5 0 = [0] ∧
      (doLightClustering atan2R Real.arcsin 2 cfgC5 lightsC5 bufs0).counts 0 = 1 := by
  have htrue2 : lightIntersectsCluster atan2R Real.arcsin 2 cfgC5 0
      ⟨⟨2000, 0, -1⟩, ⟨1, 1, 1⟩⟩ = true := lightIntersects_C5_true
  have hlist : clusterAcceptedLights atan2R Real.arcsin 2 cfgC5 lightsC5 0 = [0] := by
    rw [clusterAcceptedLights_eq_take_filter]
    simp [lightsC5, htrue2]
    simp only [cfgC5]
    rfl
  have htot : (0 : ℕ) < totalClusters cfgC5 := by
    simp [totalClusters, cfgC5]
  refine ⟨?_, hlist, ?_⟩
  · have hd : (1002 : ℝ) < Real.sqrt 4000001 := by
      rw [Real.lt_sqrt (by norm_num)]
      norm_num
    simp only [vlength, Vec3.dot, lightsC5, cfgC5]
    norm_num
    exact hd
  · rw [doLightClustering_counts atan2R Real.arcsin 2 cfgC5 lightsC5 bufs0 0 htot, hlist]
    rfl

theorem u32clampIdx_zero [LinearOrderedField α] [FloorRing α] (v : α) (n : ℕ)
    (h0 : 0 ≤ v) (h1 : v < 1) : u32clampIdx v n = 0 := by
  have hf : ⌊v⌋ = 0 := by
    rw [Int.floor_eq_zero_iff]
    exact ⟨h0, h1⟩
  rw [u32clampIdx, hf]
  omega

theorem u32clampIdx_eq_one [LinearOrderedField α] [FloorRing α] (v : α) (n : ℕ)
    (h1 : 1 ≤ v) (h2 : v < 2) (hn : 2 ≤ n) : u32clampIdx v n = 1 := by
  have hf : ⌊v⌋ = 1 := by
    rw [Int.floor_eq_iff]
    constructor
    · exact_mod_cast h1
    · push_cast
      linarith
  rw [u32clampIdx, hf]
  omega

/-- Clustering uniforms of the C6 comparison scene: 1x1x2 grid (two depth
slices), capacity 1, identity view matrix, inverse projection of the
spec-modelled camera. -/
noncomputable def cfgC6 : ClusteringUniforms ℝ :=
  ⟨Mat4.id, specInvProjMat 2 1 (1 / 10) 1000, 1000, 1000, 1 / 10, 1000, 1, 1, 2, 1⟩

/-- Single light of the C6 scene, one unit in front of the shaded surface. -/
noncomputable def lightsC6 : LightSet ℝ :=
  ⟨1, fun _ => ⟨⟨0, 0, -599⟩, ⟨1, 1, 1⟩⟩⟩

/-- The shared Cluster Light Table of the C6 scene: cluster 1 (far depth
slice, where the surface at view depth 600 lies) holds light 0; cluster 0 is
empty. -/
def countsC6 : ℕ → ℕ := fun c => if c = 1 then 1 else 0

/-- Index list of the shared Cluster Light Table of the C6 scene. -/
def indicesC6 : ℕ → ℕ := fun _ => 0

/-- Forward+ fragment of the C6 scene: surface point `(0, 0, -600)` facing
`+z`, at pixel `(500, 500)` with its true NDC depth `n = 29995/29997`
(`n = far*(d - near)/(d*(far - near))` at `d = 600`). -/
noncomputable def inputC6 : FragmentInput ℝ :=
  ⟨⟨0, 0, -600, 1⟩, ⟨0, 0, 1, 0⟩, ⟨0, 0⟩, ⟨500, 500, 29995 / 29997, 1⟩⟩

/-- Deferred fullscreen fragment of the C6 scene (same pixel). -/
noncomputable def dinputC6 : DeferredFragmentInput ℝ :=
  ⟨⟨0, 0⟩, ⟨500, 500, 29995 / 29997, 1⟩⟩

/-- G-buffer position texture of the C6 scene (the stored world position of
the same surface the Forward+ fragment shades). -/
noncomputable def gPosC6 : ℤ → ℤ → Vec4 ℝ := fun _ _ => ⟨0, 0, -600, 1⟩

/-- G-buffer normal texture of the C6 scene. -/
noncomputable def gNormC6 : ℤ → ℤ → Vec4 ℝ := fun _ _ => ⟨0, 0, 1, 0⟩

/-- G-buffer albedo texture of the C6 scene. -/
noncomputable def gAlbC6 : ℤ → ℤ → Vec3 ℝ := fun _ _ => ⟨1, 1, 1⟩

/-- Material diffuse texture of the C6 scene (same albedo). -/
noncomputable def texC6 : Vec2 ℝ → Vec3 ℝ := fun _ => ⟨1, 1, 1⟩

/-- The Forward+ derivation puts the C6 fragment in depth slice 0: feeding
`fragCoord.z * 2 - 1` (a GL-convention remap) into the WebGPU-convention
inverse projection yields the distorted view depth `far*d/(2*far - d) =
3000/7`, not 600. -/
theorem forwardPlusClusterIndex_C6 :
    forwardPlusClusterIndex cfgC6 inputC6.fragCoord = 0 := by
  simp only [forwardPlusClusterIndex, cfgC6, inputC6, specInvProjMat, Mat4.mulVec,
    Vec4.xyz, Vec3.sdiv]
  rw [u32clampIdx_one, u32clampIdx_zero _ _ (by norm_num) (by norm_num)]

/-- The deferred derivation puts the same surface in depth slice 1 (its true
view depth is 600, beyond the slice boundary 500.05). -/
theorem deferredClusterIndex_C6 :
    deferredClusterIndex cfgC6 dinputC6.fragCoord
      (gPosC6 (i32trunc dinputC6.fragCoord.x) (i32trunc dinputC6.fragCoord.y)).xyz
      = 1 := by
  simp only [deferredClusterIndex, cfgC6, dinputC6, gPosC6, Mat4.mulVec, Mat4.id,
    Vec4.xyz]
  rw [u32clampIdx_one, u32clampIdx_eq_one _ _ (by norm_num) (by norm_num) (by norm_num)]

/-- C6.  Code-bug evaluation: given the identical scene (same surface point,
normal, albedo), identical camera, identical light configuration and the
same shared Cluster Light Table, the Forward+ pipeline shades the fragment
black (its distorted depth reconstruction lands in empty cluster 0) while
the Clustered Deferred pipeline, using the view matrix on the stored world
position, lands in cluster 1 and produces `(1/2, 1/2, 1/2)` — the outputs
differ by 0.5 per channel, far beyond floating-point tolerance. -/
theorem C6_pipelines_disagree :
    forwardPlusShade Real.sqrt 2 cfgC6 lightsC6 countsC6 indicesC6 texC6 inputC6
      = ⟨⟨0, 0, 0, 1⟩⟩ ∧
    clusteredDeferredShade Real.sqrt 2 cfgC6 lightsC6 countsC6 indicesC6
        gPosC6 gNormC6 gAlbC6 dinputC6
      = ⟨⟨1 / 2, 1 / 2, 1 / 2, 1⟩⟩ ∧
    forwardPlusShade Real.sqrt 2 cfgC6 lightsC6 countsC6 indicesC6 texC6 inputC6
      ≠ clusteredDeferredShade Real.sqrt 2 cfgC6 lightsC6 countsC6 indicesC6
          gPosC6 gNormC6 gAlbC6 dinputC6 := by
  have hfw : forwardPlusShade Real.sqrt 2 cfgC6 lightsC6 countsC6 indicesC6 texC6 inputC6
      = ⟨⟨0, 0, 0, 1⟩⟩ := by
    simp only [forwardPlusShade, forwardPlusClusterIndex_C6, countsC6, texC6]
    norm_num [Vec3.cmul, Vec3.zero, vec4of, FragmentOutput.mk.injEq, Vec4.mk.injEq]
  have hdef : clusteredDeferredShade Real.sqrt 2 cfgC6 lightsC6 countsC6 indicesC6
      gPosC6 gNormC6 gAlbC6 dinputC6 = ⟨⟨1 / 2, 1 / 2, 1 / 2, 1⟩⟩ := by
    have hr1 : List.range 1 = [0] := rfl
    simp only [clusteredDeferredShade]
    rw [deferredClusterIndex_C6]
    norm_num [countsC6, indicesC6, gPosC6, gNormC6, gAlbC6, lightsC6, cfgC6,
      normalizeV, vlength, Vec3.dot, Vec3.sub, Vec3.sdiv, Vec4.xyz,
      Real.sqrt_one, Vec3.add, Vec3.zero, Vec3.scale, Vec3.cmul, vec4of,
      hr1, FragmentOutput.mk.injEq, Vec4.mk.injEq]
  refine ⟨hfw, hdef, ?_⟩
  rw [hfw, hdef]
  intro h
  simp only [FragmentOutput.mk.injEq, Vec4.mk.injEq] at h
  norm_num at h

/-- `Lights.maxNumLights` (stage/lights.ts): fixed pool capacity. -/
def maxNumLights : ℕ := 5000

/-- Initializer of the `Lights.numLights` field (stage/lights.ts): default
active count. -/
def initialNumLights : ℕ := 200

/-- Host-side state of the `Lights` class relevant to the control surface:
the mutable active-light-count field. -/
structure LightsState where
  numLights : ℕ

/-- Embeds `Lights.updateLightSetUniformNumLights` (stage/lights.ts):
`device.queue.writeBuffer(lightSetStorageBuffer, 0, new
Uint32Array([this.numLights]))` — the current `numLights` field, converted
to an unsigned 32-bit value (JavaScript `ToUint32`, i.e. mod `2^32`), is
written to the first word of the light buffer, with no validation of any
kind.  The buffer is modelled as a map from word offset to value. -/
def updateLightSetUniformNumLights (s : LightsState) (buf : ℕ → ℕ) : ℕ → ℕ :=
  Function.update buf 0 (s.numLights % 2 ^ 32)

/-- C9 counterexample.  A requested active count of 6000 — above the
capacity 5000 — flows through the control surface into the light buffer
unmodified: nothing rejects or clamps it, so the assignment and animation
stages would observe `numLights > capacity`. -/
theorem C9_unclamped_counterexample :
    maxNumLights < 6000 ∧
      updateLightSetUniformNumLights ⟨6000⟩ (fun _ => 0) 0 = 6000 := by
  refine ⟨by decide, ?_⟩
  simp only [updateLightSetUniformNumLights, Function.update_same]
  norm_num

/-- C9 (amended).  The control surface performs no validation: the count
written into the pipeline's light buffer equals the requested count reduced
mod `2^32` (the `Uint32Array` conversion), whatever its size; the capacity
bound is respected only in that the field's initial value 200 is below the
capacity 5000 — it is not enforced at the boundary. -/
theorem C9_write_is_unvalidated (s : LightsState) (buf : ℕ → ℕ) :
    updateLightSetUniformNumLights s buf 0 = s.numLights % 2 ^ 32 ∧
      initialNumLights ≤ maxNumLights := by
  refine ⟨?_, by decide⟩
  simp only [updateLightSetUniformNumLights, Function.update_same]
